import Mathlib

/-!
Verification development for the distressed-property pipeline
(address normalizer, King County enrichment fetcher, store upserts,
scoring engine, ingestion orchestrator).

The Python sources are embedded shallowly:

* strings are modelled as Lean `String`/`List Char` (ASCII fragment);
* Python `None` becomes `Option`;
* SQLite tables become lists of row structures threaded through each
  operation, together with the connection-level `last_insert_rowid`
  counter that `sqlite3` exposes through `cursor.lastrowid`;
* floating point is modelled by `Rat`;
* timestamps are modelled at day resolution as `Int` day numbers in the
  proleptic Gregorian calendar (`days_from_civil`).
-/

namespace Pipeline

/-! Section: Python string primitives (ASCII fragment) -/

/-- Python `\s` on the ASCII range: space, tab, LF, CR, VT, FF. -/
def isPySpace (c : Char) : Bool :=
  c = ' ' || c = '\t' || c = '\n' || c = '\r' || c = Char.ofNat 11 || c = Char.ofNat 12

/-- Python regex `\w` on the ASCII range: letters, digits, underscore. -/
def isWordChar (c : Char) : Bool :=
  c.isAlpha || c.isDigit || c = '_'

/-- ASCII upper-casing of one character, as `str.upper` does per character. -/
def pyUpperChar (c : Char) : Char := c.toUpper

/-- ASCII lower-casing of one character, as `str.lower` does per character. -/
def pyLowerChar (c : Char) : Char := c.toLower

/-- Python `str.strip()` on a character list. -/
def pyStripL (l : List Char) : List Char :=
  ((l.dropWhile isPySpace).reverse.dropWhile isPySpace).reverse

/-- Python `str.strip()`. -/
def pyStrip (s : String) : String := String.mk (pyStripL s.toList)

/-- Python `str.upper()` (ASCII). -/
def pyUpper (s : String) : String := String.mk (s.toList.map pyUpperChar)

/-- Python `str.lower()` (ASCII). -/
def pyLower (s : String) : String := String.mk (s.toList.map pyLowerChar)

/-- Model of `str.zfill(n)` for the sign-free strings fed to `_make_pin`
(digit strings from the assessor CSVs). -/
def zfill (n : Nat) (s : String) : String :=
  if s.length ≥ n then s
  else String.mk (List.replicate (n - s.length) '0' ++ s.toList)

/-- Python slicing `s[:n]`. -/
def pyTake (s : String) (n : Nat) : String := String.mk (s.toList.take n)

/-- Python string `<=`: lexicographic comparison by code point. -/
def pyStrLeL : List Char → List Char → Bool
  | [], _ => true
  | _ :: _, [] => false
  | a :: as, b :: bs =>
    if a.toNat < b.toNat then true
    else if b.toNat < a.toNat then false
    else pyStrLeL as bs

/-- Python `a <= b` on strings. -/
def pyStrLe (a b : String) : Bool := pyStrLeL a.toList b.toList

/-! Section: calendar arithmetic

`datetime` subtraction is modelled at day resolution: a date is its day
number in the proleptic Gregorian calendar (algorithm `days_from_civil`,
with C-style truncating division, which is what the reference algorithm
uses; all operands arising from 4-digit years keep every division variant
in agreement). -/

def isLeap (y : Int) : Bool :=
  (y % 4 = 0 && y % 100 ≠ 0) || y % 400 = 0

def daysInMonth (y : Int) (m : Nat) : Nat :=
  if m = 2 then (if isLeap y then 29 else 28)
  else if m = 4 || m = 6 || m = 9 || m = 11 then 30
  else 31

/-- Day number of a civil date (proleptic Gregorian, day 0 = 1970-01-01). -/
def days_from_civil (y : Int) (m d : Nat) : Int :=
  let y' : Int := if m ≤ 2 then y - 1 else y
  let era : Int := (if y' ≥ 0 then y' else y' - 399).tdiv 400
  let yoe : Int := y' - era * 400
  let mp : Int := (Int.ofNat m + 9) % 12
  let doy : Int := (153 * mp + 2).tdiv 5 + (Int.ofNat d - 1)
  let doe : Int := yoe * 365 + yoe.tdiv 4 - yoe.tdiv 100 + doy
  era * 146097 + doe - 719468

/-- Digit value of a digit character list, `none` if any char is not a digit
or the list is empty. -/
def digitsToNat : List Char → Option Nat
  | [] => none
  | l => if l.all Char.isDigit then
           some (l.foldl (fun a c => a * 10 + (c.toNat - 48)) 0)
         else none

/-- Model of `datetime.fromisoformat` as used by the scorer, modelled for date-only
ISO strings `YYYY-MM-DD` at day resolution (the `detail`/`event_date`
values this pipeline stores are exactly of that shape; other shapes are
modelled as parse failures, which the scorer treats as "no date"). -/
def parse_event_date (s : String) : Option Int :=
  match s.toList with
  | [y1, y2, y3, y4, '-', m1, m2, '-', d1, d2] =>
    match digitsToNat [y1, y2, y3, y4], digitsToNat [m1, m2], digitsToNat [d1, d2] with
    | some y, some m, some d =>
      if 1 ≤ m && m ≤ 12 && 1 ≤ d && d ≤ daysInMonth (Int.ofNat y) m then
        some (days_from_civil (Int.ofNat y) m d)
      else none
    | _, _, _ => none
  | _ => none

/-- A digit string of length 1 to `maxLen`, as `strptime`'s `%m`/`%d`
field regexes accept. -/
def fieldNat (maxLen : Nat) (l : List Char) : Option Nat :=
  if l.length ≥ 1 && l.length ≤ maxLen then digitsToNat l else none

/-- Model of `datetime.strptime(s, "%m/%d/%Y")`: 1-2 digit month, `/`, 1-2 digit
day, `/`, 4 digit year; the constructed date must be a valid calendar
date. Returns the day number. -/
def parse_mdy (s : String) : Option Int :=
  match s.toList.splitOn '/' with
  | [ms, ds, ys] =>
    match fieldNat 2 ms, fieldNat 2 ds, (if ys.length = 4 then digitsToNat ys else none) with
    | some m, some d, some y =>
      if 1 ≤ m && m ≤ 12 && 1 ≤ d && d ≤ daysInMonth (Int.ofNat y) m then
        some (days_from_civil (Int.ofNat y) m d)
      else none
    | _, _, _ => none
  | _ => none

/-- Model of `datetime.strptime(s, "%Y-%m-%d")`: 4 digit year, `-`, 1-2 digit
month, `-`, 1-2 digit day, valid calendar date. -/
def parse_ymd (s : String) : Option Int :=
  match s.toList.splitOn '-' with
  | [ys, ms, ds] =>
    match (if ys.length = 4 then digitsToNat ys else none), fieldNat 2 ms, fieldNat 2 ds with
    | some y, some m, some d =>
      if 1 ≤ m && m ≤ 12 && 1 ≤ d && d ≤ daysInMonth (Int.ofNat y) m then
        some (days_from_civil (Int.ofNat y) m d)
      else none
    | _, _, _ => none
  | _ => none

/-! Section: address normalizer (`pipeline/normalize.py`)

Each `re.sub` of the source is embedded as a direct matcher for its
specific pattern.  All substitutions run on the result of `str.upper()`,
so the `re.IGNORECASE` flags reduce to matching the upper-case literals.
Scanning is left-to-right and non-overlapping exactly as `re.sub` does;
the word-boundary `\b` at a resumption point is evaluated against the
last character of the previously consumed text, which the substitution
loops thread through as `prev`. -/

/-- Word boundary `\b` between two characters (`none` = string edge). -/
def boundary (a b : Option Char) : Bool :=
  (match a with | some c => isWordChar c | none => false) ≠
  (match b with | some c => isWordChar c | none => false)

/-- Helper for `collapseSpaces`: `inRun` records whether the previous
character belonged to a whitespace run already rendered as one space. -/
def collapseGo : Bool → List Char → List Char
  | _, [] => []
  | inRun, c :: t =>
    if isPySpace c then
      if inRun then collapseGo true t else ' ' :: collapseGo true t
    else c :: collapseGo false t

/-- Replace every whitespace run by a single space (`re.sub(r'\s+', ' ')`). -/
def collapseSpaces (l : List Char) : List Char := collapseGo false l

/-- One anchored attempt of `_CITY_STATE_ZIP` =
`,?\s*(?:SEATTLE)?\s*,?\s*(?:WA|WASHINGTON)?\s*,?\s*\d{5}(?:-\d{4})?\s*$`
starting at the head of `l` and required to reach the end.  Optional
elements branch into all alternatives; `\s*` is maximal (no following
element of this pattern can consume a space character). -/
def optComma (l : List Char) : List (List Char) :=
  match l with
  | ',' :: t => [t, ',' :: t]
  | _ => [l]

def optLit (w : List Char) (l : List Char) : List (List Char) :=
  if w.isPrefixOf l then [l.drop w.length, l] else [l]

def optState (l : List Char) : List (List Char) :=
  (if ('W' :: 'A' :: 'S' :: 'H' :: 'I' :: 'N' :: 'G' :: 'T' :: 'O' :: 'N' :: []).isPrefixOf l
   then [l.drop 10] else []) ++
  (if ('W' :: 'A' :: []).isPrefixOf l then [l.drop 2] else []) ++ [l]

def dropSp (l : List Char) : List Char := l.dropWhile isPySpace

def fiveDigits (l : List Char) : Option (List Char) :=
  match l with
  | a :: b :: c :: d :: e :: t =>
    if [a, b, c, d, e].all Char.isDigit then some t else none
  | _ => none

def optDashFour (l : List Char) : List (List Char) :=
  match l with
  | '-' :: a :: b :: c :: d :: t =>
    if [a, b, c, d].all Char.isDigit then [t, l] else [l]
  | _ => [l]

def cszMatchesHere (l : List Char) : Bool :=
  let cands :=
    ((((((optComma l).map dropSp).flatMap
        (optLit (['S', 'E', 'A', 'T', 'T', 'L', 'E']))).map dropSp).flatMap
        optComma).map dropSp).flatMap optState
  let cands := ((cands.map dropSp).flatMap optComma).map dropSp
  cands.any fun l' =>
    match fiveDigits l' with
    | some rest => (optDashFour rest).any fun r => (dropSp r).isEmpty
    | none => false

/-- Pass `_CITY_STATE_ZIP.sub("", addr)`: remove the leftmost match (it always
extends to the end of the string because of the `$` anchor). -/
def stripCityStateZip : List Char → List Char
  | [] => []
  | c :: t => if cszMatchesHere (c :: t) then [] else c :: stripCityStateZip t

/-- The `_UNIT_PATTERN` designator alternation, in source order. -/
def unitAlts : List (List Char) :=
  [['U', 'N', 'I', 'T'], ['A', 'P', 'T'], ['S', 'U', 'I', 'T', 'E'], ['S', 'T', 'E'],
   ['#'], ['B', 'L', 'D', 'G'], ['B', 'U', 'I', 'L', 'D', 'I', 'N', 'G'],
   ['F', 'L', 'O', 'O', 'R'], ['F', 'L'], ['R', 'M'], ['R', 'O', 'O', 'M']]

/-- Match `_UNIT_PATTERN` = `\b(?:...)\s*[#.]?\s*\S*` at the head of `l`
(with `prev` the character preceding `l`); returns the number of
characters consumed.  The alternation takes the first fitting branch
(the tail `\s*[#.]?\s*\S*` never fails, so the engine never revisits
the alternation), and every quantifier is greedy with nothing after it. -/
def unitMatchAt (prev : Option Char) (l : List Char) : Option Nat :=
  match unitAlts.find? (fun a => a.isPrefixOf l && boundary prev a.head?) with
  | some a =>
    let r1 := (l.drop a.length).dropWhile isPySpace
    let r2 := match r1 with
              | c :: t => if c = '#' || c = '.' then t else r1
              | [] => r1
    let r3 := (r2.dropWhile isPySpace).dropWhile (fun c => !isPySpace c)
    some (l.length - r3.length)
  | none => none

def unitSubGo : Nat → Option Char → List Char → List Char
  | 0, _, l => l
  | _ + 1, _, [] => []
  | fuel + 1, prev, c :: t =>
    match unitMatchAt prev (c :: t) with
    | some k => unitSubGo fuel (((c :: t).take k).getLast?) ((c :: t).drop k)
    | none => c :: unitSubGo fuel (some c) t

/-- Pass `_UNIT_PATTERN.sub("", addr)`. -/
def unitSub (l : List Char) : List Char := unitSubGo l.length none l

/-- Match `#\s*\w+` at the head of `l`; returns consumed count. -/
def hashMatchAt (l : List Char) : Option Nat :=
  match l with
  | '#' :: t =>
    let r1 := t.dropWhile isPySpace
    let r2 := r1.dropWhile isWordChar
    if r1.length ≠ r2.length then some (l.length - r2.length) else none
  | _ => none

def hashSubGo : Nat → List Char → List Char
  | 0, l => l
  | _ + 1, [] => []
  | fuel + 1, c :: t =>
    match hashMatchAt (c :: t) with
    | some k => ' ' :: hashSubGo fuel ((c :: t).drop k)
    | none => c :: hashSubGo fuel t

/-- Pass `re.sub` of `#\s*\w+` with a space. -/
def hashSub (l : List Char) : List Char := hashSubGo l.length l

/-- Pass replacing each comma with a space. -/
def commaSub (l : List Char) : List Char :=
  l.map fun c => if c = ',' then ' ' else c

/-- Pass replacing each period with a space. -/
def periodSub (l : List Char) : List Char :=
  l.map fun c => if c = '.' then ' ' else c

/-- Table `_DIRECTIONALS`: keys with replacements, in the order produced by
`sorted(keys, key=len, reverse=True)` (stable within equal lengths,
so dict insertion order is kept there). -/
def dirAlts : List (List Char × List Char) :=
  [(['S', 'O', 'U', 'T', 'H', ' ', 'W', 'E', 'S', 'T'], ['S', 'W']),
   (['N', 'O', 'R', 'T', 'H', ' ', 'W', 'E', 'S', 'T'], ['N', 'W']),
   (['S', 'O', 'U', 'T', 'H', ' ', 'E', 'A', 'S', 'T'], ['S', 'E']),
   (['N', 'O', 'R', 'T', 'H', ' ', 'E', 'A', 'S', 'T'], ['N', 'E']),
   (['S', 'O', 'U', 'T', 'H', 'W', 'E', 'S', 'T'], ['S', 'W']),
   (['N', 'O', 'R', 'T', 'H', 'W', 'E', 'S', 'T'], ['N', 'W']),
   (['S', 'O', 'U', 'T', 'H', 'E', 'A', 'S', 'T'], ['S', 'E']),
   (['N', 'O', 'R', 'T', 'H', 'E', 'A', 'S', 'T'], ['N', 'E']),
   (['S', ' ', 'W', 'E', 'S', 'T'], ['S', 'W']),
   (['N', ' ', 'W', 'E', 'S', 'T'], ['N', 'W']),
   (['S', ' ', 'E', 'A', 'S', 'T'], ['S', 'E']),
   (['N', ' ', 'E', 'A', 'S', 'T'], ['N', 'E']),
   (['S', 'O', 'U', 'T', 'H'], ['S']),
   (['N', 'O', 'R', 'T', 'H'], ['N']),
   (['S', '.', 'W', '.'], ['S', 'W']),
   (['N', '.', 'W', '.'], ['N', 'W']),
   (['S', '.', 'E', '.'], ['S', 'E']),
   (['N', '.', 'E', '.'], ['N', 'E']),
   (['E', 'A', 'S', 'T'], ['E']),
   (['W', 'E', 'S', 'T'], ['W']),
   (['S', '.', 'W'], ['S', 'W']),
   (['N', '.', 'W'], ['N', 'W']),
   (['S', '.', 'E'], ['S', 'E']),
   (['N', '.', 'E'], ['N', 'E'])]

/-- Match `_DIR_PATTERN` = `\b(alt|...)(?:\b|(?=\s|$))` at the head of
`l`: the first alternative (in sorted order) that is a prefix, starts at
a word boundary, and whose end satisfies `\b` or is followed by a space
or the end of the string.  Returns (replacement, consumed count). -/
def dirMatchAt (prev : Option Char) (l : List Char) : Option (List Char × Nat) :=
  match dirAlts.find? (fun p =>
      p.1.isPrefixOf l && boundary prev p.1.head? &&
      (boundary p.1.getLast? (l.drop p.1.length).head? ||
       (match (l.drop p.1.length).head? with
        | some c => isPySpace c
        | none => true))) with
  | some p => some (p.2, p.1.length)
  | none => none

def dirSubGo : Nat → Option Char → List Char → List Char
  | 0, _, l => l
  | _ + 1, _, [] => []
  | fuel + 1, prev, c :: t =>
    match dirMatchAt prev (c :: t) with
    | some (rep, k) => rep ++ dirSubGo fuel (((c :: t).take k).getLast?) ((c :: t).drop k)
    | none => c :: dirSubGo fuel (some c) t

/-- Pass `_DIR_PATTERN.sub(...)`. -/
def dirSub (l : List Char) : List Char := dirSubGo l.length none l

/-- Match `_SINGLE_DIR_PATTERN` = `\b([SNEW])\.\s*(?=[A-Z0-9]|\s|$)` at
the head of `l`.  `\s*` is greedy; when the lookahead fails after the
maximal space run the engine gives back one space (the lookahead then
sees a space and succeeds).  Returns (the letter, consumed count). -/
def singleDirMatchAt (prev : Option Char) (l : List Char) : Option (Char × Nat) :=
  match l with
  | c :: '.' :: t =>
    if (c = 'S' || c = 'N' || c = 'E' || c = 'W') && boundary prev (some c) then
      let spaces := (t.takeWhile isPySpace).length
      let rest := t.drop spaces
      let laOk := match rest.head? with
                  | some ch => ch.isUpper || ch.isDigit || ch.isLower
                  | none => true
      if laOk then some (c, 2 + spaces)
      else if spaces ≥ 1 then some (c, 2 + spaces - 1)
      else none
    else none
  | _ => none

def singleDirSubGo : Nat → Option Char → List Char → List Char
  | 0, _, l => l
  | _ + 1, _, [] => []
  | fuel + 1, prev, c :: t =>
    match singleDirMatchAt prev (c :: t) with
    | some (ch, k) =>
      ch :: ' ' :: singleDirSubGo fuel (((c :: t).take k).getLast?) ((c :: t).drop k)
    | none => c :: singleDirSubGo fuel (some c) t

/-- Pass `_SINGLE_DIR_PATTERN.sub(lambda m: m.group(1).upper() + " ", addr)`. -/
def singleDirSub (l : List Char) : List Char := singleDirSubGo l.length none l

/-- Table `_SUFFIXES`: keys with replacements, in
`sorted(keys, key=len, reverse=True)` order. -/
def sufAlts : List (List Char × List Char) :=
  [(['B', 'O', 'U', 'L', 'E', 'V', 'A', 'R', 'D'], ['B', 'L', 'V', 'D']),
   (['T', 'E', 'R', 'R', 'A', 'C', 'E'], ['T', 'E', 'R']),
   (['P', 'A', 'R', 'K', 'W', 'A', 'Y'], ['P', 'K', 'W', 'Y']),
   (['S', 'T', 'R', 'E', 'E', 'T'], ['S', 'T']),
   (['A', 'V', 'E', 'N', 'U', 'E'], ['A', 'V', 'E']),
   (['C', 'I', 'R', 'C', 'L', 'E'], ['C', 'I', 'R']),
   (['D', 'R', 'I', 'V', 'E'], ['D', 'R']),
   (['B', 'L', 'V', 'D', '.'], ['B', 'L', 'V', 'D']),
   (['P', 'L', 'A', 'C', 'E'], ['P', 'L']),
   (['C', 'O', 'U', 'R', 'T'], ['C', 'T']),
   (['P', 'K', 'W', 'Y', '.'], ['P', 'K', 'W', 'Y']),
   (['A', 'V', 'E', '.'], ['A', 'V', 'E']),
   (['L', 'A', 'N', 'E'], ['L', 'N']),
   (['R', 'O', 'A', 'D'], ['R', 'D']),
   (['C', 'I', 'R', '.'], ['C', 'I', 'R']),
   (['T', 'E', 'R', '.'], ['T', 'E', 'R']),
   (['S', 'T', 'R'], ['S', 'T']),
   (['S', 'T', '.'], ['S', 'T']),
   (['D', 'R', '.'], ['D', 'R']),
   (['P', 'L', '.'], ['P', 'L']),
   (['C', 'T', '.'], ['C', 'T']),
   (['L', 'N', '.'], ['L', 'N']),
   (['R', 'D', '.'], ['R', 'D']),
   (['W', 'A', 'Y'], ['W', 'A', 'Y']),
   (['A', 'V'], ['A', 'V', 'E'])]

/-- Match `_SUFFIX_PATTERN` = `\b(alt|...)\b\.?` at the head of `l`:
first alternative that is a prefix, starts at a word boundary, and ends
at a word boundary; a following literal `.` is then consumed greedily.
Returns (replacement, consumed count). -/
def sufMatchAt (prev : Option Char) (l : List Char) : Option (List Char × Nat) :=
  match sufAlts.find? (fun p =>
      p.1.isPrefixOf l && boundary prev p.1.head? &&
      boundary p.1.getLast? (l.drop p.1.length).head?) with
  | some p =>
    let dot := match (l.drop p.1.length).head? with
               | some '.' => 1
               | _ => 0
    some (p.2, p.1.length + dot)
  | none => none

def sufSubGo : Nat → Option Char → List Char → List Char
  | 0, _, l => l
  | _ + 1, _, [] => []
  | fuel + 1, prev, c :: t =>
    match sufMatchAt prev (c :: t) with
    | some (rep, k) => rep ++ sufSubGo fuel (((c :: t).take k).getLast?) ((c :: t).drop k)
    | none => c :: sufSubGo fuel (some c) t

/-- Pass `_SUFFIX_PATTERN.sub(...)`. -/
def sufSub (l : List Char) : List Char := sufSubGo l.length none l

/-- One `re.sub(rf'\b{word}\b', repl, addr)` pass (ordinal words). -/
def wordSubGo (w rep : List Char) : Nat → Option Char → List Char → List Char
  | 0, _, l => l
  | _ + 1, _, [] => []
  | fuel + 1, prev, c :: t =>
    if w.isPrefixOf (c :: t) && boundary prev (some c) &&
       boundary w.getLast? (((c :: t).drop w.length).head?) then
      rep ++ wordSubGo w rep fuel w.getLast? ((c :: t).drop w.length)
    else c :: wordSubGo w rep fuel (some c) t

def wordSub (w rep : List Char) (l : List Char) : List Char :=
  wordSubGo w rep l.length none l

/-- Table `_ORDINAL_WORDS`, in dict order (the source iterates `.items()`). -/
def ordinalWords : List (List Char × List Char) :=
  [(['F', 'I', 'R', 'S', 'T'], ['1', 'S', 'T']),
   (['S', 'E', 'C', 'O', 'N', 'D'], ['2', 'N', 'D']),
   (['T', 'H', 'I', 'R', 'D'], ['3', 'R', 'D']),
   (['F', 'O', 'U', 'R', 'T', 'H'], ['4', 'T', 'H']),
   (['F', 'I', 'F', 'T', 'H'], ['5', 'T', 'H']),
   (['S', 'I', 'X', 'T', 'H'], ['6', 'T', 'H']),
   (['S', 'E', 'V', 'E', 'N', 'T', 'H'], ['7', 'T', 'H']),
   (['E', 'I', 'G', 'H', 'T', 'H'], ['8', 'T', 'H']),
   (['N', 'I', 'N', 'T', 'H'], ['9', 'T', 'H']),
   (['T', 'E', 'N', 'T', 'H'], ['1', '0', 'T', 'H'])]

def ordinalWordsSub (l : List Char) : List Char :=
  ordinalWords.foldl (fun acc p => wordSub p.1 p.2 acc) l

/-- Match `_SPLIT_ORDINAL` = `\b(\d+)\s+(ST|ND|RD|TH)\b` at the head of
`l`; replacement is `\1\2`.  `\d+` is effectively maximal: giving back a
digit makes the following `\s+` face a digit and fail. -/
def splitOrdMatchAt (prev : Option Char) (l : List Char) : Option (List Char × Nat) :=
  match l.head? with
  | some c0 =>
    if c0.isDigit && boundary prev (some c0) then
      let ds := l.takeWhile Char.isDigit
      let r1 := l.drop ds.length
      let sps := (r1.takeWhile isPySpace).length
      if sps = 0 then none
      else
        match r1.drop sps with
        | a :: b :: t =>
          if ((a = 'S' && b = 'T') || (a = 'N' && b = 'D') ||
              (a = 'R' && b = 'D') || (a = 'T' && b = 'H')) &&
             boundary (some b) t.head? then
            some (ds ++ [a, b], ds.length + sps + 2)
          else none
        | _ => none
    else none
  | none => none

def splitOrdSubGo : Nat → Option Char → List Char → List Char
  | 0, _, l => l
  | _ + 1, _, [] => []
  | fuel + 1, prev, c :: t =>
    match splitOrdMatchAt prev (c :: t) with
    | some (rep, k) => rep ++ splitOrdSubGo fuel (((c :: t).take k).getLast?) ((c :: t).drop k)
    | none => c :: splitOrdSubGo fuel (some c) t

/-- Pass `_SPLIT_ORDINAL.sub` with replacement `\1\2`. -/
def splitOrdSub (l : List Char) : List Char := splitOrdSubGo l.length none l

/-- Embedding of `normalize_address` (`pipeline/normalize.py`).  Python `None`/empty
input both appear here as the empty string (`if not raw: return None`). -/
def normalize_address (raw : String) : Option String :=
  if raw = "" then none
  else
    let a := pyStripL raw.toList
    let a := a.map (fun c => if c = '\n' || c = '\r' then ' ' else c)
    let a := a.map pyUpperChar
    let a := stripCityStateZip a
    let a := unitSub a
    let a := hashSub a
    let a := commaSub a
    let a := pyStripL (collapseSpaces a)
    let a := dirSub a
    let a := singleDirSub a
    let a := sufSub a
    let a := periodSub a
    let a := ordinalWordsSub a
    let a := splitOrdSub a
    let a := pyStripL (collapseSpaces a)
    if a.isEmpty then none else some (String.mk a)

/-! Section: KC enrichment sales load (`KCEnrichmentFetcher._load_sales`) -/

/-- Embedding of `_make_pin(major, minor)`. -/
def make_pin (major minor : String) : String :=
  zfill 6 (pyStrip major) ++ zfill 4 (pyStrip minor)

/-- One row of the RPSale CSV as exposed by `csv.DictReader`
(`none` models an absent key). -/
structure SaleCsvRow where
  major : Option String
  minor : Option String
  documentDate : Option String
  salePrice : Option String
  buyerName : Option String
deriving Repr, DecidableEq

/-- The per-PIN value stored in `self._sales`. -/
structure SaleInfo where
  last_date : String
  last_price : String
  buyer : String
deriving Repr, DecidableEq

/-- Association-list lookup (Python `dict.get`). -/
def lookupA (l : List (String × α)) (k : String) : Option α :=
  match l.find? (fun p => p.1 == k) with
  | some p => some p.2
  | none => none

/-- Python `dict[k] = v`: overwrite in place, else append. -/
def setA (l : List (String × α)) (k : String) (v : α) : List (String × α) :=
  if l.any (fun p => p.1 == k) then
    l.map (fun p => if p.1 == k then (k, v) else p)
  else l ++ [(k, v)]

/-- The in-memory join step of `_load_sales`: scan the CSV rows, restrict
to `ws_pins`, skip empty `DocumentDate`, and keep one sale per PIN,
replacing the stored one only when the stored `last_date` string
compares `<` the new one (`existing["last_date"] >= doc_date` skips). -/
def salesStep (wsPins : List String) (sales : List (String × SaleInfo))
    (row : SaleCsvRow) : List (String × SaleInfo) :=
  let pin := make_pin (row.major.getD ("") ) (row.minor.getD ("") )
  if !(wsPins.contains pin) then sales
  else
    let doc := pyStrip (row.documentDate.getD ("") )
    if doc = "" then sales
    else
      let keep := match lookupA sales pin with
                  | some ex => pyStrLe doc ex.last_date
                  | none => false
      if keep then sales
      else setA sales pin
             { last_date := doc,
               last_price := row.salePrice.getD ("0"),
               buyer := pyStrip (row.buyerName.getD ("") ) }

def load_sales (wsPins : List String) (rows : List SaleCsvRow) :
    List (String × SaleInfo) :=
  rows.foldl (salesStep wsPins) []

/-! Section: KC enrichment signal extraction
(`KCEnrichmentFetcher.extract_signals`) -/

/-- JSON-ish values appearing in signal `detail` dicts. -/
inductive JVal where
  | str (s : String)
  | num (q : Rat)
  | null
deriving Repr, DecidableEq

/-- Owner mailing record (`self._mailing[pin]`). -/
structure Mailing where
  addr : String
  city : String
  state : String
  zip : String
deriving Repr, DecidableEq

/-- An enriched parcel record (`KCEnrichmentFetcher._enrich`). -/
structure ParcelRecord where
  pin : String
  address : String
  zip : String
  land_val : Option Rat
  impr_val : Option Rat
  mailing : Option Mailing
  sale : Option SaleInfo
  in_foreclosure : Bool
deriving Repr, DecidableEq

/-- One signal dict as produced by `extract_signals` and consumed by
`run_fetcher` (`sig.get("detail")`, `sig.get("event_date")`). -/
structure SigSpec where
  source_record_id : String
  signal_type : String
  detail : Option (List (String × JVal))
  event_date : Option String
deriving Repr, DecidableEq

/-- Python `round(x, ndigits)` (banker's rounding), on the exact rational
model of the involved floats. -/
def pyRound (ndigits : Nat) (q : Rat) : Rat :=
  let scale : Rat := (10 : Rat) ^ ndigits
  let x := q * scale
  let f : Int := ⌊x⌋
  let frac := x - f
  let r : Int :=
    if frac < 1 / 2 then f
    else if frac > 1 / 2 then f + 1
    else if f % 2 = 0 then f else f + 1
  (r : Rat) / scale

/-- Model of `int(float(s))` on the price strings: optional sign, digits, optional
fractional part, truncated toward zero; anything else raises
(`ValueError`), modelled as `none`. -/
def parse_price (s : String) : Option Int :=
  let t := pyStrip s
  let (sign, body) : Int × List Char :=
    match t.toList with
    | '-' :: r => (-1, r)
    | '+' :: r => (1, r)
    | r => (1, r)
  match body.splitOn '.' with
  | [ip] => (digitsToNat ip).map (fun n => sign * Int.ofNat n)
  | [ip, fp] =>
    if (ip.all Char.isDigit && fp.all Char.isDigit) &&
       (ip.length + fp.length > 0) then
      (digitsToNat (if ip.isEmpty then ['0'] else ip)).map
        (fun n => sign * Int.ofNat n)
    else none
  | _ => none

/-- Computation `sale.get("last_price") or 0` then `int(float(...))` with
`(ValueError, TypeError) -> 0`. -/
def salePriceInt (lastPrice : String) : Int :=
  if lastPrice = "" then 0
  else (parse_price lastPrice).getD 0

/-- Embedding of `KCEnrichmentFetcher.extract_signals`.  `foreclosures` is
`self._foreclosures`; `now` is `datetime.now()` at day resolution. -/
def extract_signals (foreclosures : List String) (now : Int)
    (record : ParcelRecord) : List SigSpec :=
  let pin := record.pin
  let landVal := record.land_val.getD 0
  let imprVal := record.impr_val.getD 0
  let absentee : List SigSpec :=
    match record.mailing with
    | some mailing =>
      let state := mailing.state
      let city := mailing.city
      if state ≠ "" && state ≠ "WA" then
        [{ source_record_id := "kc-absentee-" ++ pin,
           signal_type := "absentee_owner_out_of_state",
           detail := some [("mailing_city", JVal.str city),
                           ("mailing_state", JVal.str state)],
           event_date := none }]
      else if state = "WA" && city ≠ "" && pyUpper city ≠ "SEATTLE" then
        [{ source_record_id := "kc-absentee-" ++ pin,
           signal_type := "absentee_owner_in_state",
           detail := some [("mailing_city", JVal.str city),
                           ("mailing_state", JVal.str state)],
           event_date := none }]
      else []
    | none => []
  let saleSigs : List SigSpec :=
    match record.sale with
    | some sale =>
      let lastDate := sale.last_date
      if lastDate ≠ "" then
        let saleDt : Option Int :=
          match parse_mdy (pyTake lastDate 10) with
          | some d => some d
          | none => parse_ymd (pyTake lastDate 10)
        match saleDt with
        | some d =>
          let ageYears : Rat := ((now - d : Int) : Rat) / (1461 / 4 : Rat)
          let longterm : List SigSpec :=
            if ageYears ≥ 20 then
              [{ source_record_id := "kc-longterm-" ++ pin,
                 signal_type := "long_term_owner_20yr",
                 detail := some [("last_sale_date", JVal.str lastDate),
                                 ("years", JVal.num (pyRound 1 ageYears))],
                 event_date := some (pyTake lastDate 10) }]
            else if ageYears ≥ 10 then
              [{ source_record_id := "kc-longterm-" ++ pin,
                 signal_type := "long_term_owner_10yr",
                 detail := some [("last_sale_date", JVal.str lastDate),
                                 ("years", JVal.num (pyRound 1 ageYears))],
                 event_date := some (pyTake lastDate 10) }]
            else []
          let salePrice := salePriceInt sale.last_price
          let sold : List SigSpec :=
            if ageYears < 1 && salePrice > 0 then
              [{ source_record_id := "kc-sold-" ++ pin,
                 signal_type := "recently_sold",
                 detail := some [("price", JVal.num (salePrice : Rat)),
                                 ("buyer", JVal.str sale.buyer),
                                 ("status", JVal.str ("sold"))],
                 event_date := some (pyTake lastDate 10) }]
            else []
          longterm ++ sold
        | none => []
      else []
    | none =>
      [{ source_record_id := "kc-longterm-" ++ pin,
         signal_type := "long_term_owner_20yr",
         detail := some [("last_sale_date", JVal.null), ("years", JVal.null)],
         event_date := none }]
  let foreclosure : List SigSpec :=
    if foreclosures.contains pin then
      [{ source_record_id := "kc-foreclosure-" ++ pin,
         signal_type := "foreclosure",
         detail := some [],
         event_date := none }]
    else []
  let lowImpr : List SigSpec :=
    if landVal > 0 && imprVal < landVal * (3 / 10) then
      [{ source_record_id := "kc-lowimpr-" ++ pin,
         signal_type := "low_improvement_ratio",
         detail := some [("land_val", JVal.num landVal),
                         ("impr_val", JVal.num imprVal),
                         ("ratio", JVal.num
                           (if landVal ≠ 0 then pyRound 2 (imprVal / landVal) else 0))],
         event_date := none }]
    else []
  absentee ++ saleSigs ++ foreclosure ++ lowImpr

/-! Section: scoring engine (`pipeline/scoring.py`)

`score_property` reads `(signal_type, event_date, source, detail)` rows
of one property and computes `(total, tier)`.  The YAML config is a
key/value document; every access in the source is a `.get` with a
default, modelled by `Option` fields.  The stored `detail` column (JSON
text of a dict, or NULL) is modelled by the dict itself; a `detail` of
`some d` corresponds to a truthy non-NULL column. -/

structure ScoringConfig where
  signal_weights : List (String × Rat)
  max_age_days : Option Int
  decay_boost : Option Rat
  status_multipliers : List (String × List (String × Rat))
  multi_source_threshold : Option Nat
  multi_source_points : Option Rat
  tier_a : Option Rat
  tier_b : Option Rat
deriving Repr

/-- A config document with none of the keys present: every `.get`
falls back to the coded default. -/
def defaultConfig : ScoringConfig :=
  { signal_weights := [], max_age_days := none, decay_boost := none,
    status_multipliers := [], multi_source_threshold := none,
    multi_source_points := none, tier_a := none, tier_b := none }

/-- One row of `SELECT signal_type, event_date, source, detail FROM
signals WHERE property_id = ?`. -/
structure ScoreRow where
  signal_type : String
  event_date : Option String
  source : String
  detail : Option (List (String × JVal))
deriving Repr, DecidableEq

/-- Lookup `weights.get(signal_type, 1)` etc. -/
def lookupD (l : List (String × α)) (k : String) (d : α) : α :=
  (lookupA l k).getD d

/-- The row is skipped by the max-age exclusion: its `event_date` is
truthy, parses, and the parsed moment is strictly before
`now - max_age_days`. -/
def excludedByAge (maxAge : Int) (now : Int) (row : ScoreRow) : Bool :=
  match row.event_date with
  | some s =>
    if s ≠ "" then
      match parse_event_date s with
      | some d => decide (d < now - maxAge)
      | none => false
    else false
  | none => false

/-- The decay multiplier of a non-excluded row:
`1.0 + decay_boost * max(0, 1 - age_days/max_age_days)` when the date is
truthy and parses, `1.0` otherwise. -/
def decayMultOf (maxAge : Int) (boost : Rat) (now : Int) (row : ScoreRow) : Rat :=
  match row.event_date with
  | some s =>
    if s ≠ "" then
      match parse_event_date s with
      | some d => 1 + boost * max 0 (1 - ((now - d : Int) : Rat) / (maxAge : Rat))
      | none => 1
    else 1
  | none => 1

/-- The status multiplier of a row:
`(detail.get("status") or "").lower().strip()` looked up under the
row's source; a non-string truthy status raises `AttributeError`,
which the source catches (multiplier stays `1.0`). -/
def statusMultOf (cfg : ScoringConfig) (row : ScoreRow) : Rat :=
  match row.detail with
  | some d =>
    match lookupA cfg.status_multipliers row.source with
    | some m =>
      let status : Option String :=
        match lookupA d ("status") with
        | some (JVal.str s) => some (pyStrip (pyLower s))
        | some (JVal.num q) => if q = 0 then some ("") else none
        | some JVal.null => some ("")
        | none => some ("")
      match status with
      | some st => lookupD m st 1
      | none => 1
    | none => 1
  | none => 1

/-- One iteration of the `for row in rows` loop: accumulate
`(total, distinct sources)`. -/
def scoreStep (cfg : ScoringConfig) (maxAge : Int) (boost : Rat) (now : Int)
    (acc : Rat × List String) (row : ScoreRow) : Rat × List String :=
  if excludedByAge maxAge now row then acc
  else
    let baseWeight := lookupD cfg.signal_weights row.signal_type 1
    let decayMult := decayMultOf maxAge boost now row
    let statusMult := statusMultOf cfg row
    (acc.1 + baseWeight * decayMult * statusMult,
     if acc.2.contains row.source then acc.2 else acc.2 ++ [row.source])

/-- Embedding of `score_property`: total plus multi-source bonus, then tier cutoffs. -/
def score_property (cfg : ScoringConfig) (now : Int) (rows : List ScoreRow) :
    Rat × String :=
  let maxAge := cfg.max_age_days.getD 1825
  let boost := cfg.decay_boost.getD (1 / 2)
  let acc := rows.foldl (scoreStep cfg maxAge boost now) (0, [])
  let threshold := cfg.multi_source_threshold.getD 2
  let bonus := cfg.multi_source_points.getD 5
  let total := if acc.2.length ≥ threshold then acc.1 + bonus else acc.1
  let tierA := cfg.tier_a.getD 15
  let tierB := cfg.tier_b.getD 8
  (total, if total ≥ tierA then "A" else if total ≥ tierB then "B" else "C")

/-! Section: store (`pipeline/db.py`)

The two tables touched by the upserts are lists of rows; `AUTOINCREMENT`
is a per-table sequence; `lastInsertRowid` is the connection-level value
`sqlite3_last_insert_rowid()` that `cursor.lastrowid` reports after any
statement that is an `INSERT` — including an upsert whose conflict arm
ran `DO UPDATE`, which leaves the value untouched. -/

structure PropRow where
  id : Nat
  address_raw : Option String
  address_norm : String
  zip_code : Option String
  latitude : Option Rat
  longitude : Option Rat
  property_type : String
  total_score : Rat
  tier : String
  first_seen : Nat
  last_updated : Nat
deriving Repr, DecidableEq

structure SigRow where
  id : Nat
  property_id : Nat
  source : String
  source_record_id : String
  signal_type : String
  signal_weight : Rat
  detail : Option (List (String × JVal))
  event_date : Option String
  fetched_at : Nat
deriving Repr, DecidableEq

structure DB where
  properties : List PropRow
  signals : List SigRow
  propSeq : Nat
  sigSeq : Nat
  lastInsertRowid : Nat
deriving Repr, DecidableEq

def emptyDB : DB :=
  { properties := [], signals := [], propSeq := 0, sigSeq := 0,
    lastInsertRowid := 0 }

/-- Embedding of `upsert_property(conn, address_raw, address_norm, zip_code, lat, lng,
property_type) -> id`.  The `INSERT ... ON CONFLICT(address_norm) DO
UPDATE` either appends a fresh row (new `address_norm`) or rewrites the
conflicting row with `COALESCE`d columns; the return value is
`cursor.lastrowid` when truthy, else the id from the fallback
`SELECT`. -/
def upsert_property (db : DB) (now : Nat) (address_raw : Option String)
    (address_norm : String) (zip_code : Option String)
    (lat lng : Option Rat) (property_type : String) : Nat × DB :=
  if db.properties.any (fun p => p.address_norm == address_norm) then
    let props := db.properties.map fun p =>
      if p.address_norm == address_norm then
        { p with
          address_raw := address_raw.orElse (fun _ => p.address_raw),
          zip_code := zip_code.orElse (fun _ => p.zip_code),
          latitude := lat.orElse (fun _ => p.latitude),
          longitude := lng.orElse (fun _ => p.longitude),
          property_type := if property_type ≠ "unknown" then property_type
                           else p.property_type,
          last_updated := now }
      else p
    let db' := { db with properties := props }
    if db.lastInsertRowid ≠ 0 then (db.lastInsertRowid, db')
    else
      match props.find? (fun p => p.address_norm == address_norm) with
      | some p => (p.id, db')
      | none => (0, db')
  else
    let newId := db.propSeq + 1
    let row : PropRow :=
      { id := newId, address_raw := address_raw, address_norm := address_norm,
        zip_code := zip_code, latitude := lat, longitude := lng,
        property_type := property_type, total_score := 0, tier := "C",
        first_seen := now, last_updated := now }
    (newId,
     { db with properties := db.properties ++ [row], propSeq := newId,
               lastInsertRowid := newId })

inductive IntegrityErr where
  | uniqueViolation
  | fkViolation
deriving Repr, DecidableEq

/-- The bare `INSERT INTO signals ...`: rejected by the
`UNIQUE(source, source_record_id)` constraint or by foreign-key
enforcement (`PRAGMA foreign_keys=ON` at `get_connection`); both raise
`sqlite3.IntegrityError`. -/
def insert_signal_stmt (db : DB) (now : Nat) (property_id : Nat)
    (source source_record_id signal_type : String) (signal_weight : Rat)
    (detail_json : Option (List (String × JVal))) (event_date : Option String) :
    Except IntegrityErr DB :=
  if db.signals.any (fun s =>
      s.source == source && s.source_record_id == source_record_id) then
    Except.error IntegrityErr.uniqueViolation
  else if !(db.properties.any (fun p => p.id == property_id)) then
    Except.error IntegrityErr.fkViolation
  else
    let newId := db.sigSeq + 1
    Except.ok
      { db with
        signals := db.signals ++
          [{ id := newId, property_id := property_id, source := source,
             source_record_id := source_record_id, signal_type := signal_type,
             signal_weight := signal_weight, detail := detail_json,
             event_date := event_date, fetched_at := now }],
        sigSeq := newId, lastInsertRowid := newId }

/-- Embedding of `upsert_signal(...) -> inserted: bool`.  The whole insert sits in a
`try/except sqlite3.IntegrityError: return False` — every integrity
violation, not just the uniqueness collision, comes back as `False`.
`json.dumps(detail) if detail else None` stores NULL for a falsy
(empty) detail dict. -/
def upsert_signal (db : DB) (now : Nat) (property_id : Nat)
    (source source_record_id signal_type : String) (signal_weight : Rat)
    (detail : Option (List (String × JVal))) (event_date : Option String) :
    Bool × DB :=
  let detail_json : Option (List (String × JVal)) :=
    match detail with
    | some d => if d.isEmpty then none else some d
    | none => none
  match insert_signal_stmt db now property_id source source_record_id
      signal_type signal_weight detail_json event_date with
  | Except.ok db' => (true, db')
  | Except.error _ => (false, db)

/-! Section: ingestion orchestrator (`pipeline/run.py`, `run_fetcher`) -/

/-- One fetched record as the orchestrator sees it: the values of
`extract_address`, `extract_coords`, `extract_zip`, `extract_signals`. -/
structure FetchRecord where
  rawAddr : Option String
  lat : Option Rat
  lng : Option Rat
  zip : Option String
  signals : List SigSpec
deriving Repr, DecidableEq

/-- The signal loop of one record: upsert every extracted signal with
weight 0 against the returned property id. -/
def insertSignals (source : String) (now : Nat) (propId : Nat) (db : DB)
    (sigs : List SigSpec) : DB :=
  sigs.foldl
    (fun d sig =>
      (upsert_signal d now propId source sig.source_record_id
         sig.signal_type 0 sig.detail sig.event_date).2)
    db

/-- The body of the record loop of `run_fetcher`: skip records with a
falsy address or a `None` normalization, upsert the property, then
upsert each extracted signal with weight 0. -/
def processRecord (source : String) (now : Nat) (db : DB)
    (record : FetchRecord) : DB :=
  match record.rawAddr with
  | none => db
  | some raw =>
    if raw = "" then db
    else
      match normalize_address raw with
      | none => db
      | some norm =>
        let res :=
          upsert_property db now (some raw) norm record.zip record.lat
            record.lng ("unknown")
        insertSignals source now res.1 res.2 record.signals

/-- Embedding of `run_fetcher`, restricted to its store effects (counts, paging and
progress printing dropped; commits are transparent in this model). -/
def run_fetcher (source : String) (now : Nat) (db : DB)
    (records : List FetchRecord) : DB :=
  records.foldl (processRecord source now) db

/-- A property row no signal row references. -/
def isOrphan (db : DB) (p : PropRow) : Bool :=
  db.signals.all (fun s => s.property_id ≠ p.id)

/-- Predicate: some property row is an orphan. -/
def hasOrphan (db : DB) : Bool :=
  db.properties.any (isOrphan db)

/-! Section: derived predicates and concrete scenarios used by the
statements below -/

/-- The sale dates `_load_sales` considers for a given PIN: stripped
non-empty `DocumentDate` values of rows whose `_make_pin` equals the PIN
and lies in the parcel set. -/
def docDatesFor (wsPins : List String) (pin : String) :
    List SaleCsvRow → List String
  | [] => []
  | row :: rows =>
    let p := make_pin (row.major.getD ("") ) (row.minor.getD ("") )
    let doc := pyStrip (row.documentDate.getD ("") )
    if (p == pin) && wsPins.contains p && !(doc == "") then
      doc :: docDatesFor wsPins pin rows
    else docDatesFor wsPins pin rows

/-- A row is in the recency window: its `event_date` is truthy, parses,
and is not strictly older than `now - maxAge`. -/
def signalInWindow (maxAge now : Int) (row : ScoreRow) : Bool :=
  match row.event_date with
  | some s =>
    if s ≠ "" then
      match parse_event_date s with
      | some d => decide (now - maxAge ≤ d)
      | none => false
    else false
  | none => false

/-- Every property row is referenced by some signal row. -/
def OrphanFree (db : DB) : Prop :=
  ∀ p ∈ db.properties, ∃ s ∈ db.signals, s.property_id = p.id

/-- Second application of the normalizer reproduces the first output. -/
def normIdem (raw : String) : Bool :=
  match normalize_address raw with
  | some y => normalize_address y == some y
  | none => true

/-- The raw inputs of the normalizer module's inline test list. -/
def normalizerModuleTests : List String :=
  ["5812 SW Spokane St",
   "5812 S.W. Spokane Street",
   "5812 South West Spokane St.",
   "5812 sw spokane street, seattle, wa 98106",
   "4th Ave SW",
   "123 NE 45th Street #201",
   "456 S. Main Ave, Apt 3B, Seattle, WA 98136",
   "789 First Avenue S",
   "100 North West 3rd Place",
   "222 N.W. Market Street\nSeattle WA 98107"]

/-- RPSale rows for one PIN: a 2020 sale and a chronologically later
sale from early 2021 whose `MM/DD/YYYY` string is lexicographically
smaller. -/
def c1rows : List SaleCsvRow :=
  [{ major := some ("123456"), minor := some ("0001"),
     documentDate := some ("12/31/2020"), salePrice := some ("500000"),
     buyerName := some ("A") },
   { major := some ("123456"), minor := some ("0001"),
     documentDate := some ("01/02/2021"), salePrice := some ("600000"),
     buyerName := some ("B") }]

/-- Connection state after: property upsert (id 1), then two signal
inserts (signal rowids 1 and 2, each bumping the connection's
`last_insert_rowid`). -/
def c2db : DB :=
  (upsert_signal (upsert_signal
    (upsert_property emptyDB 10 (some ("1 A St")) ("1 A ST") none none none
      ("unknown")).2
    11 1 ("src") ("r1") ("t") 0 none none).2 12 1 ("src") ("r2") ("t") 0
    none none).2

def c3sig : SigSpec :=
  { source_record_id := "X", signal_type := "t", detail := none,
    event_date := none }

def c3sig2 : SigSpec :=
  { source_record_id := "Y", signal_type := "t", detail := none,
    event_date := none }

/-- Two fetched records with different addresses whose only signals
carry the same `source_record_id`. -/
def c3r1 : FetchRecord :=
  { rawAddr := some ("1 A"), lat := none, lng := none, zip := none,
    signals := [c3sig] }

def c3r2 : FetchRecord :=
  { rawAddr := some ("2 B"), lat := none, lng := none, zip := none,
    signals := [c3sig] }

/-- One record with a fresh signal, for the witness run. -/
def c3r3 : FetchRecord :=
  { rawAddr := some ("3 C"), lat := none, lng := none, zip := none,
    signals := [c3sig2] }

/-- A signal row with no event date. -/
def c5row : ScoreRow :=
  { signal_type := "x", event_date := none, source := "s", detail := none }

/-- A signal row whose event date is far older than the 1825-day
window relative to day 20738 (2026-10-12). -/
def c5old : ScoreRow :=
  { signal_type := "x", event_date := some ("2015-01-01"), source := "s",
    detail := none }

/-- Store with one property whose optional columns are all populated. -/
def c7db : DB :=
  (upsert_property emptyDB 10 (some ("A raw")) ("N ST") (some ("98116"))
    (some 1) (some 2) ("house")).2

/-- Enriched parcel: out-of-state (CA) mailing, no sale row, not in
foreclosure, zero appraisals (so no low-improvement signal). -/
def c8rec : ParcelRecord :=
  { pin := "0123456789", address := "1 X ST", zip := "98116",
    land_val := some 0, impr_val := some 0,
    mailing := some { addr := "9 Z", city := "LOS ANGELES", state := "CA",
                      zip := "90001" },
    sale := none, in_foreclosure := false }

/-- Same parcel but with an empty mailing state (city-only
`CityState` field, as `_parse_city_state` yields for e.g. `SEATTLE`). -/
def c8rec2 : ParcelRecord :=
  { pin := "0123456789", address := "1 X ST", zip := "98116",
    land_val := some 0, impr_val := some 0,
    mailing := some { addr := "9 Z", city := "SEATTLE", state := "",
                      zip := "" },
    sale := none, in_foreclosure := false }

/-! Section: helper lemmas -/

theorem scoreStep_excluded (cfg : ScoringConfig) (maxAge : Int) (boost : Rat)
    (now : Int) (acc : Rat × List String) (row : ScoreRow)
    (h : excludedByAge maxAge now row = true) :
    scoreStep cfg maxAge boost now acc row = acc := by
  simp [scoreStep, h]

theorem foldl_scoreStep_filter (cfg : ScoringConfig) (maxAge : Int)
    (boost : Rat) (now : Int) (rows : List ScoreRow) :
    ∀ acc, rows.foldl (scoreStep cfg maxAge boost now) acc =
      (rows.filter fun r => !excludedByAge maxAge now r).foldl
        (scoreStep cfg maxAge boost now) acc := by
  induction rows with
  | nil => intro _; rfl
  | cons r rs ih =>
    intro acc
    by_cases h : excludedByAge maxAge now r = true
    · simp only [List.foldl_cons, List.filter_cons, h,
        scoreStep_excluded cfg maxAge boost now acc r h]
      simp [ih]
    · simp only [List.foldl_cons, List.filter_cons,
        Bool.eq_false_iff.mpr h]
      simp [h, ih]

theorem foldl_scoreStep_const (cfg : ScoringConfig) (maxAge : Int)
    (boost : Rat) (now : Int) :
    ∀ (rows : List ScoreRow),
      (∀ r ∈ rows, excludedByAge maxAge now r = true) →
      ∀ acc, rows.foldl (scoreStep cfg maxAge boost now) acc = acc := by
  intro rows
  induction rows with
  | nil => intro _ _; rfl
  | cons r rs ih =>
    intro h acc
    simp only [List.foldl_cons]
    rw [scoreStep_excluded cfg maxAge boost now acc r
      (h r (List.mem_cons_self r rs))]
    exact ih (fun x hx => h x (List.mem_cons_of_mem r hx)) acc

theorem find?_map_setA {α : Type} (l : List (String × α)) (k : String) (v : α) :
    (l.map (fun p => if p.1 == k then (k, v) else p)).find?
        (fun p => p.1 == k) =
      if l.any (fun p => p.1 == k) then some (k, v) else none := by
  induction l with
  | nil => rfl
  | cons p t ih =>
    by_cases hp : (p.1 == k) = true
    · rw [List.map_cons, if_pos hp, List.any_cons, hp, Bool.true_or]
      simp [List.find?_cons]
    · have hp' : (p.1 == k) = false := by simpa using hp
      rw [List.map_cons, if_neg hp, List.any_cons, hp', Bool.false_or]
      simp only [List.find?_cons, hp']
      exact ih

theorem find?_map_setA_ne {α : Type} (l : List (String × α)) (k k' : String)
    (v : α) (h : k' ≠ k) :
    (l.map (fun p => if p.1 == k then (k, v) else p)).find?
        (fun p => p.1 == k') =
      l.find? (fun p => p.1 == k') := by
  have hkk : (k == k') = false := by
    simp only [beq_eq_false_iff_ne, ne_eq]
    exact fun e => h e.symm
  induction l with
  | nil => rfl
  | cons p t ih =>
    by_cases hp : (p.1 == k) = true
    · have hpk : p.1 = k := by simpa using hp
      have hp2 : (p.1 == k') = false := by rw [hpk]; exact hkk
      rw [List.map_cons, if_pos hp]
      simp only [List.find?_cons, hkk, hp2]
      exact ih
    · rw [List.map_cons, if_neg hp]
      cases hq : (p.1 == k') with
      | true => simp only [List.find?_cons, hq]
      | false =>
        simp only [List.find?_cons, hq]
        exact ih

theorem lookupA_setA_self {α : Type} (l : List (String × α)) (k : String)
    (v : α) : lookupA (setA l k v) k = some v := by
  unfold setA lookupA
  by_cases h : l.any (fun p => p.1 == k) = true
  · rw [if_pos h, find?_map_setA, if_pos h]
  · rw [if_neg h, List.find?_append]
    have hnone : l.find? (fun p => p.1 == k) = none := by
      rw [List.find?_eq_none]
      intro p hp
      by_contra hc
      exact h (List.any_eq_true.mpr ⟨p, hp, by simpa using hc⟩)
    rw [hnone]
    simp [List.find?]

theorem lookupA_setA_ne {α : Type} (l : List (String × α)) (k k' : String)
    (v : α) (h : k' ≠ k) : lookupA (setA l k v) k' = lookupA l k' := by
  unfold setA lookupA
  by_cases hany : l.any (fun p => p.1 == k) = true
  · rw [if_pos hany, find?_map_setA_ne l k k' v h]
  · rw [if_neg hany, List.find?_append]
    have hlast : ([(k, v)].find? (fun p => p.1 == k')) = none := by
      rw [List.find?]
      have : (k == k') = false := by
        simp only [beq_eq_false_iff_ne, ne_eq]
        exact fun e => h e.symm
      simp [this]
    rw [hlast]
    cases hfind : l.find? (fun p => p.1 == k') with
    | none => rfl
    | some p => rfl

theorem salesStep_lookup_other (wsPins : List String)
    (sales : List (String × SaleInfo)) (row : SaleCsvRow) (pin : String)
    (hne : make_pin (row.major.getD ("") ) (row.minor.getD ("") ) ≠ pin) :
    lookupA (salesStep wsPins sales row) pin = lookupA sales pin := by
  simp only [salesStep]
  split
  · rfl
  · split
    · rfl
    · split
      · rfl
      · exact lookupA_setA_ne sales _ pin _ (Ne.symm hne)

theorem pyStrLeL_refl : ∀ l : List Char, pyStrLeL l l = true := by
  intro l
  induction l with
  | nil => rfl
  | cons a as ih => simp [pyStrLeL, ih]

theorem pyStrLe_refl (s : String) : pyStrLe s s = true := pyStrLeL_refl _

theorem pyStrLeL_total : ∀ a b : List Char,
    pyStrLeL a b = false → pyStrLeL b a = true := by
  intro a
  induction a with
  | nil => intro b h; cases h
  | cons x xs ih =>
    intro b h
    cases b with
    | nil => rfl
    | cons y ys =>
      simp only [pyStrLeL] at h ⊢
      by_cases h1 : x.toNat < y.toNat
      · rw [if_pos h1] at h
        cases h
      · by_cases h2 : y.toNat < x.toNat
        · rw [if_pos h2]
        · rw [if_neg h1, if_neg h2] at h
          rw [if_neg h2, if_neg h1]
          exact ih ys h

theorem pyStrLe_total (a b : String) (h : pyStrLe a b = false) :
    pyStrLe b a = true := pyStrLeL_total _ _ h

theorem pyStrLeL_trans : ∀ a b c : List Char,
    pyStrLeL a b = true → pyStrLeL b c = true → pyStrLeL a c = true := by
  intro a
  induction a with
  | nil => intro b c _ _; rfl
  | cons x xs ih =>
    intro b c hab hbc
    cases b with
    | nil => exact absurd hab (by simp [pyStrLeL])
    | cons y ys =>
      cases c with
      | nil => exact absurd hbc (by simp [pyStrLeL])
      | cons z zs =>
        simp only [pyStrLeL] at hab hbc ⊢
        by_cases h1 : x.toNat < y.toNat
        · by_cases h2 : y.toNat < z.toNat
          · rw [if_pos (Nat.lt_trans h1 h2)]
          · by_cases h3 : z.toNat < y.toNat
            · rw [if_neg h2, if_pos h3] at hbc
              cases hbc
            · rw [if_pos (show x.toNat < z.toNat by omega)]
        · by_cases h4 : y.toNat < x.toNat
          · rw [if_neg h1, if_pos h4] at hab
            cases hab
          · rw [if_neg h1, if_neg h4] at hab
            by_cases h2 : y.toNat < z.toNat
            · rw [if_pos (show x.toNat < z.toNat by omega)]
            · by_cases h3 : z.toNat < y.toNat
              · rw [if_neg h2, if_pos h3] at hbc
                cases hbc
              · rw [if_neg h2, if_neg h3] at hbc
                rw [if_neg (show ¬ x.toNat < z.toNat by omega),
                  if_neg (show ¬ z.toNat < x.toNat by omega)]
                exact ih ys zs hab hbc

theorem pyStrLe_trans (a b c : String) (hab : pyStrLe a b = true)
    (hbc : pyStrLe b c = true) : pyStrLe a c = true :=
  pyStrLeL_trans _ _ _ hab hbc

theorem load_sales_fold_spec (wsPins : List String) :
    ∀ (rows : List SaleCsvRow) (sales : List (String × SaleInfo))
      (pin : String) (info : SaleInfo),
      lookupA (rows.foldl (salesStep wsPins) sales) pin = some info →
      ((lookupA sales pin = some info ∨
          info.last_date ∈ docDatesFor wsPins pin rows) ∧
       (∀ d ∈ docDatesFor wsPins pin rows,
          pyStrLe d info.last_date = true) ∧
       (∀ old : SaleInfo, lookupA sales pin = some old →
          pyStrLe old.last_date info.last_date = true)) := by
  intro rows
  induction rows with
  | nil =>
    intro sales pin info hl
    rw [List.foldl_nil] at hl
    refine ⟨Or.inl hl, by simp [docDatesFor], ?_⟩
    intro old hold
    have hoi : old = info := by
      rw [hold] at hl
      exact Option.some.inj hl
    rw [hoi]
    exact pyStrLe_refl _
  | cons row rows ih =>
    intro sales pin info hl
    rw [List.foldl_cons] at hl
    obtain ⟨H1, H2, H3⟩ := ih (salesStep wsPins sales row) pin info hl
    by_cases hq : make_pin (row.major.getD ("") ) (row.minor.getD ("") ) = pin
    case neg =>
      have hdates : docDatesFor wsPins pin (row :: rows) =
          docDatesFor wsPins pin rows := by
        simp [docDatesFor, hq]
      have hlook := salesStep_lookup_other wsPins sales row pin hq
      rw [hlook] at H1 H3
      rw [hdates]
      exact ⟨H1, H2, H3⟩
    case pos =>
      by_cases hc : make_pin (row.major.getD ("") ) (row.minor.getD ("") ) ∈ wsPins
      case neg =>
        have hstep : salesStep wsPins sales row = sales := by
          simp [salesStep, hc]
        have hdates : docDatesFor wsPins pin (row :: rows) =
            docDatesFor wsPins pin rows := by
          simp [docDatesFor, hc]
        rw [hstep] at H1 H3
        rw [hdates]
        exact ⟨H1, H2, H3⟩
      case pos =>
        by_cases hd : pyStrip (row.documentDate.getD ("") ) = ""
        case pos =>
          have hstep : salesStep wsPins sales row = sales := by
            simp [salesStep, hc, hd]
          have hdates : docDatesFor wsPins pin (row :: rows) =
              docDatesFor wsPins pin rows := by
            simp [docDatesFor, hd]
          rw [hstep] at H1 H3
          rw [hdates]
          exact ⟨H1, H2, H3⟩
        case neg =>
          have hcp : pin ∈ wsPins := hq ▸ hc
          have hdates : docDatesFor wsPins pin (row :: rows) =
              pyStrip (row.documentDate.getD ("") ) ::
                docDatesFor wsPins pin rows := by
            simp [docDatesFor, hq, hc, hd, hcp]
          rw [hdates]
          cases hE : lookupA sales
              (make_pin (row.major.getD ("") ) (row.minor.getD ("") )) with
          | none =>
            have hstep : salesStep wsPins sales row =
                setA sales
                  (make_pin (row.major.getD ("") ) (row.minor.getD ("") ))
                  { last_date := pyStrip (row.documentDate.getD ("") ),
                    last_price := row.salePrice.getD ("0"),
                    buyer := pyStrip (row.buyerName.getD ("") ) } := by
              simp [salesStep, hc, hd, hE]
            rw [hstep, hq] at H1 H3
            have hnew := H3 _ (lookupA_setA_self sales pin _)
            refine ⟨?_, ?_, ?_⟩
            · cases H1 with
              | inl hsome =>
                rw [lookupA_setA_self sales pin _] at hsome
                cases hsome
                exact Or.inr (List.mem_cons_self _ _)
              | inr hmem => exact Or.inr (List.mem_cons_of_mem _ hmem)
            · intro d hdmem
              cases List.mem_cons.mp hdmem with
              | inl hdeq => exact hdeq ▸ hnew
              | inr hdmem2 => exact H2 d hdmem2
            · intro old hold
              rw [hq] at hE
              rw [hE] at hold
              cases hold
          | some ex =>
            by_cases hkeep :
                pyStrLe (pyStrip (row.documentDate.getD ("") ))
                  ex.last_date = true
            case pos =>
              have hstep : salesStep wsPins sales row = sales := by
                simp [salesStep, hc, hd, hE, hkeep]
              rw [hstep] at H1 H3
              rw [hq] at hE
              have hex := H3 ex hE
              refine ⟨H1.imp (fun h => h) (fun h => List.mem_cons_of_mem _ h),
                ?_, ?_⟩
              · intro d hdmem
                cases List.mem_cons.mp hdmem with
                | inl hdeq => exact hdeq ▸ pyStrLe_trans _ _ _ hkeep hex
                | inr hdmem2 => exact H2 d hdmem2
              · intro old hold
                have hoe : old = ex := by
                  rw [hold] at hE
                  exact Option.some.inj hE
                rw [hoe]
                exact hex
            case neg =>
              have hstep : salesStep wsPins sales row =
                  setA sales
                    (make_pin (row.major.getD ("") ) (row.minor.getD ("") ))
                    { last_date := pyStrip (row.documentDate.getD ("") ),
                      last_price := row.salePrice.getD ("0"),
                      buyer := pyStrip (row.buyerName.getD ("") ) } := by
                simp [salesStep, hc, hd, hE, hkeep]
              rw [hstep, hq] at H1 H3
              have hnew := H3 _ (lookupA_setA_self sales pin _)
              refine ⟨?_, ?_, ?_⟩
              · cases H1 with
                | inl hsome =>
                  rw [lookupA_setA_self sales pin _] at hsome
                  cases hsome
                  exact Or.inr (List.mem_cons_self _ _)
                | inr hmem => exact Or.inr (List.mem_cons_of_mem _ hmem)
              · intro d hdmem
                cases List.mem_cons.mp hdmem with
                | inl hdeq => exact hdeq ▸ hnew
                | inr hdmem2 => exact H2 d hdmem2
              · intro old hold
                rw [hq] at hE
                have hoe : old = ex := by
                  rw [hold] at hE
                  exact Option.some.inj hE
                rw [hoe]
                exact pyStrLe_trans _ _ _
                  (pyStrLe_total _ _ (Bool.not_eq_true _ ▸ hkeep)) hnew

/-! Section: the claims -/

/-- C9: a signal whose event date parses to a moment strictly older than
`now - max_age_days` contributes neither to the accumulated total nor to
the set of distinct sources counted against the multi-source threshold:
scoring a property is exactly scoring it with all such signals removed,
so an out-of-window signal can never help trigger the bonus. -/
theorem C9_out_of_window_signals_inert (cfg : ScoringConfig) (now : Int)
    (rows : List ScoreRow) :
    score_property cfg now rows =
      score_property cfg now
        (rows.filter fun r =>
          !excludedByAge (cfg.max_age_days.getD 1825) now r) := by
  simp only [score_property]
  rw [← foldl_scoreStep_filter]

/-- C5 (counterexample): a property whose single signal has no event
date has no signal with an event date inside the window, yet its score
under the default configuration is 1, not 0 — dateless signals count at
base weight. -/
theorem C5_counterexample :
    signalInWindow 1825 20000 c5row = false ∧
    score_property defaultConfig 20000 [c5row] = (1, "C") ∧
    (1 : Rat) ≠ 0 := by
  refine ⟨by decide, ?_, by norm_num⟩
  norm_num [score_property, scoreStep, excludedByAge, decayMultOf,
    statusMultOf, lookupD, lookupA, defaultConfig, c5row]

/-- C5 (amended): a property all of whose signals carry event dates that
parse and are strictly older than the 1825-day window scores
`total = 0` with tier `C` under the default configuration; signals with
missing or unparseable dates are not covered (they count at base
weight). -/
theorem C5_all_dated_old_scores_zero (now : Int) (rows : List ScoreRow)
    (h : ∀ r ∈ rows, excludedByAge 1825 now r = true) :
    score_property defaultConfig now rows = (0, "C") := by
  have e1 : defaultConfig.max_age_days.getD 1825 = 1825 := rfl
  have e2 : defaultConfig.decay_boost.getD (1 / 2) = 1 / 2 := rfl
  simp only [score_property, e1, e2]
  rw [foldl_scoreStep_const defaultConfig 1825 (1 / 2) now rows h]
  norm_num [defaultConfig]

/-- C5 (witness): a concrete all-out-of-window property scored on day
20738 (2026-10-12). -/
theorem C5_witness :
    (∀ r ∈ [c5old], excludedByAge 1825 20738 r = true) ∧
    score_property defaultConfig 20738 [c5old] = (0, "C") :=
  ⟨by decide, C5_all_dated_old_scores_zero 20738 [c5old] (by decide)⟩

/-- C4 (counterexample): `normalize_address` is not idempotent.  On
`MAIN 12345 APT` the unit pass removes the trailing `APT`, exposing a
trailing five-digit token; a second application then strips that token
as a zip tail, so the second output differs from the first. -/
theorem C4_counterexample :
    normalize_address ("MAIN 12345 APT") = some ("MAIN 12345") ∧
    normalize_address ("MAIN 12345") = some ("MAIN") ∧
    some ("MAIN") ≠ some ("MAIN 12345") := by
  decide

/-- C4 (amended): `normalize_address` returns null on empty input, and
idempotence — which fails in general — does hold on all raw inputs of
the normalizer module's own inline test list. -/
theorem C4_empty_null_and_idempotent_on_module_tests :
    normalize_address ("") = none ∧
    normalizerModuleTests.all normIdem = true := by
  decide

/-- C10 (counterexample): `normalize_address "100 STEVENS ST"` is not
`"100 ST"`: after the unit pass deletes `STEVENS` (the token merely
begins with the `STE` designator), the split-ordinal pass additionally
joins the remaining `100 ST` into `100ST`. -/
theorem C10_counterexample :
    normalize_address ("100 STEVENS ST") = some ("100ST") ∧
    some ("100ST") ≠ some ("100 ST") := by
  decide

/-- C10 (amended): the unit pattern deletes whole words that merely
begin with a designator string: `STEVENS` (via `STE`) is removed and the
residue `100 ST` is then joined to `100ST` by the split-ordinal rewrite;
a street name beginning with `FL` such as `FLORIDA` is likewise
deleted. -/
theorem C10_designator_word_deletion :
    normalize_address ("100 STEVENS ST") = some ("100ST") ∧
    normalize_address ("100 FLORIDA AVE") = some ("100 AVE") := by
  decide

/-- C2: on the conflict path of `upsert_property`, `cursor.lastrowid`
still holds the connection's `last_insert_rowid` from the most recent
actual insert.  After two signal inserts on the same connection, the
repeated upsert of `1 A ST` returns 2 (a signals rowid), while the only
`properties` row with that `address_norm` has id 1, contradicting the
function's own contract of returning the property's id. -/
theorem C2_conflict_path_returns_stale_rowid :
    (upsert_property c2db 13 (some ("1 A St")) ("1 A ST") none none none
      ("unknown")).1 = 2 ∧
    c2db.properties.map (fun p => (p.id, p.address_norm)) =
      [(1, "1 A ST")] := by
  decide

/-- C6 (counterexample): `upsert_signal` on an empty store (so the
`(source, source_record_id)` pair does not exist) returns `false`
instead of propagating the foreign-key violation: the violating insert
is swallowed by the `except sqlite3.IntegrityError` arm and the store is
unchanged. -/
theorem C6_counterexample :
    emptyDB.signals.any
      (fun s => s.source == "s" && s.source_record_id == "r") = false ∧
    upsert_signal emptyDB 0 1 ("s") ("r") ("t") 0 none none =
      (false, emptyDB) := by
  decide

/-- C6 (amended): `upsert_signal` returns `false` exactly when the
insert violates an integrity constraint — either the
`(source, source_record_id)` pair already exists or `property_id`
references no property row (the foreign-key violation is also an
`IntegrityError` and is equally soft-handled, not propagated). -/
theorem C6_false_iff_integrity_violation (db : DB) (now : Nat) (pid : Nat)
    (source srid stype : String) (w : Rat)
    (detail : Option (List (String × JVal))) (ed : Option String) :
    (upsert_signal db now pid source srid stype w detail ed).1 = false ↔
      (db.signals.any
          (fun s => s.source == source && s.source_record_id == srid) = true ∨
       db.properties.any (fun p => p.id == pid) = false) := by
  unfold upsert_signal insert_signal_stmt
  by_cases h1 : db.signals.any
      (fun s => s.source == source && s.source_record_id == srid) = true
  · simp [h1]
  · by_cases h2 : db.properties.any (fun p => p.id == pid) = true
    · simp [h1, h2]
    · simp [h1, h2]

/-- C7 (counterexample): a conflicting upsert that passes null zip,
null coordinates and the default type but a different `address_raw`
overwrites `address_raw` (the `COALESCE` takes the non-null new
value), so that column is not left unchanged. -/
theorem C7_counterexample :
    c7db.properties.map (fun p => p.address_raw) = [some ("A raw")] ∧
    (upsert_property c7db 20 (some ("B raw")) ("N ST") none none none
      ("unknown")).2.properties.map (fun p => p.address_raw) =
      [some ("B raw")] ∧
    some ("B raw") ≠ some ("A raw") := by
  decide

/-- C7 (amended): a conflicting upsert with null zip, null coordinates
and the default `unknown` type leaves every column of the store
unchanged except `address_raw`, which is coalesced with the new
(possibly null) value, and `last_updated`, which is refreshed;
`zip_code`, `latitude`, `longitude`, `property_type`, `total_score`,
`tier`, `first_seen` and all other rows and tables are untouched. -/
theorem C7_conflict_with_nulls_frame (db : DB) (now : Nat)
    (raw : Option String) (norm : String)
    (h : db.properties.any (fun p => p.address_norm == norm) = true) :
    (upsert_property db now raw norm none none none ("unknown")).2 =
      { db with properties := db.properties.map fun p =>
          if p.address_norm == norm then
            { p with address_raw := raw.orElse (fun _ => p.address_raw),
                     last_updated := now }
          else p } := by
  have hmap : (db.properties.map fun p =>
      if p.address_norm == norm then
        { p with
          address_raw := raw.orElse (fun _ => p.address_raw),
          zip_code := (none : Option String).orElse (fun _ => p.zip_code),
          latitude := (none : Option Rat).orElse (fun _ => p.latitude),
          longitude := (none : Option Rat).orElse (fun _ => p.longitude),
          property_type := if ("unknown" : String) ≠ "unknown" then "unknown"
                           else p.property_type,
          last_updated := now }
      else p) = db.properties.map fun p =>
      if p.address_norm == norm then
        { p with address_raw := raw.orElse (fun _ => p.address_raw),
                 last_updated := now }
      else p := by
    apply List.map_congr_left
    intro p _
    by_cases hp : p.address_norm == norm
    · simp [hp, Option.orElse]
    · simp [hp]
  simp only [upsert_property, h, if_true]
  split
  · exact congrArg (fun l => ({ db with properties := l } : DB)) hmap
  · split
    · exact congrArg (fun l => ({ db with properties := l } : DB)) hmap
    · exact congrArg (fun l => ({ db with properties := l } : DB)) hmap

/-- C7 (witness): the frame theorem applied to the concrete populated
store. -/
theorem C7_witness :
    c7db.properties.any (fun p => p.address_norm == "N ST") = true ∧
    (upsert_property c7db 20 (some ("B raw")) ("N ST") none none none
      ("unknown")).2 =
      { c7db with properties := c7db.properties.map fun p =>
          if p.address_norm == "N ST" then
            { p with
              address_raw := (some ("B raw")).orElse (fun _ => p.address_raw),
              last_updated := 20 }
          else p } :=
  ⟨by decide,
   C7_conflict_with_nulls_frame c7db 20 (some ("B raw")) ("N ST") (by decide)⟩

/-- C8 (counterexample): a parcel whose mailing state is the empty
string — which differs from `WA` — produces no
`absentee_owner_out_of_state` signal: the code requires a truthy state
(`if state and state != "WA"`). -/
theorem C8_counterexample :
    c8rec2.mailing =
      some { addr := "9 Z", city := "SEATTLE", state := "", zip := "" } ∧
    ("" : String) ≠ "WA" ∧
    (extract_signals [] 20738 c8rec2).map SigSpec.signal_type =
      ["long_term_owner_20yr"] := by
  decide

/-- C8 (amended): every enriched parcel whose mailing record carries a
non-empty state different from `WA` gets an
`absentee_owner_out_of_state` signal; and the concrete CA parcel with
no sale row, no foreclosure entry and no low-improvement condition
yields exactly the two signals `absentee_owner_out_of_state` and
`long_term_owner_20yr`. -/
theorem C8_absentee_requires_nonempty_state :
    (∀ (fs : List String) (now : Int) (record : ParcelRecord) (m : Mailing),
        record.mailing = some m → m.state ≠ "" → m.state ≠ "WA" →
        "absentee_owner_out_of_state" ∈
          (extract_signals fs now record).map SigSpec.signal_type) ∧
    (extract_signals [] 20738 c8rec).map
        (fun s => (s.source_record_id, s.signal_type)) =
      [("kc-absentee-0123456789", "absentee_owner_out_of_state"),
       ("kc-longterm-0123456789", "long_term_owner_20yr")] := by
  constructor
  · intro fs now record m hm hne hwa
    unfold extract_signals
    rw [hm]
    simp [hne, hwa]
  · decide

/-- C8 (witness): the membership statement applied to the concrete CA
parcel. -/
theorem C8_witness :
    "absentee_owner_out_of_state" ∈
      (extract_signals [] 20738 c8rec).map SigSpec.signal_type :=
  C8_absentee_requires_nonempty_state.1 [] 20738 c8rec
    { addr := "9 Z", city := "LOS ANGELES", state := "CA", zip := "90001" }
    rfl (by decide) (by decide)

/-- C1 (counterexample): `_load_sales` compares `DocumentDate` strings
lexicographically, not chronologically.  For one PIN with sales dated
`12/31/2020` and `01/02/2021`, the retained sale is the 2020 one — the
later-year sale is displaced because its `MM/DD/YYYY` string is
lexicographically smaller (the claim's asserted parse-before-max does
not happen). -/
theorem C1_counterexample :
    load_sales ["1234560001"] c1rows =
      [("1234560001",
        { last_date := "12/31/2020", last_price := "500000",
          buyer := "A" })] ∧
    parse_mdy ("12/31/2020") = some 18627 ∧
    parse_mdy ("01/02/2021") = some 18629 ∧
    (18627 : Int) < 18629 := by
  decide

/-- C1 (amended): for every PIN retained by `_load_sales`, the kept
per-PIN sale carries the lexicographically greatest non-empty
`DocumentDate` string among that PIN's rows (string comparison, not a
chronological maximum): the date is realized by some row of that PIN
and bounds all of them in string order. -/
theorem C1_retained_sale_is_lex_max (wsPins : List String)
    (rows : List SaleCsvRow) (pin : String) (info : SaleInfo)
    (h : lookupA (load_sales wsPins rows) pin = some info) :
    info.last_date ∈ docDatesFor wsPins pin rows ∧
    ∀ d ∈ docDatesFor wsPins pin rows,
      pyStrLe d info.last_date = true := by
  have hs := load_sales_fold_spec wsPins rows [] pin info h
  obtain ⟨H1, H2, _⟩ := hs
  cases H1 with
  | inl habs => exact absurd habs (by simp [lookupA, List.find?])
  | inr hmem => exact ⟨hmem, H2⟩

/-- C1 (witness): the lexicographic-max statement applied to the
concrete two-row input. -/
theorem C1_witness :
    lookupA (load_sales ["1234560001"] c1rows) ("1234560001") =
      some { last_date := "12/31/2020", last_price := "500000",
             buyer := "A" } ∧
    ("12/31/2020" : String) ∈
      docDatesFor ["1234560001"] ("1234560001") c1rows :=
  ⟨by decide,
   (C1_retained_sale_is_lex_max ["1234560001"] c1rows ("1234560001")
      { last_date := "12/31/2020", last_price := "500000", buyer := "A" }
      (by decide)).1⟩

theorem upsert_signal_properties (db : DB) (now : Nat) (pid : Nat)
    (src srid stype : String) (w : Rat)
    (detail : Option (List (String × JVal))) (ed : Option String) :
    (upsert_signal db now pid src srid stype w detail ed).2.properties =
      db.properties := by
  unfold upsert_signal insert_signal_stmt
  by_cases h1 : db.signals.any
      (fun s => s.source == src && s.source_record_id == srid) = true
  · simp [h1]
  · by_cases h2 : db.properties.any (fun p => p.id == pid) = true
    · simp [h1, h2]
    · simp [h1, h2]

theorem upsert_signal_mono (db : DB) (now : Nat) (pid : Nat)
    (src srid stype : String) (w : Rat)
    (detail : Option (List (String × JVal))) (ed : Option String) :
    ∀ s ∈ db.signals,
      s ∈ (upsert_signal db now pid src srid stype w detail ed).2.signals := by
  intro s hs
  unfold upsert_signal insert_signal_stmt
  by_cases h1 : db.signals.any
      (fun x => x.source == src && x.source_record_id == srid) = true
  · simpa [h1] using hs
  · by_cases h2 : db.properties.any (fun p => p.id == pid) = true
    · simp only [h1, h2]
      simp [List.mem_append, hs]
    · simpa [h1, h2] using hs

theorem upsert_signal_sub (db : DB) (now : Nat) (pid : Nat)
    (src srid stype : String) (w : Rat)
    (detail : Option (List (String × JVal))) (ed : Option String) :
    ∀ s ∈ (upsert_signal db now pid src srid stype w detail ed).2.signals,
      s ∈ db.signals ∨ s.source_record_id = srid := by
  intro s hs
  unfold upsert_signal insert_signal_stmt at hs
  by_cases h1 : db.signals.any
      (fun x => x.source == src && x.source_record_id == srid) = true
  · simp [h1] at hs
    exact Or.inl hs
  · by_cases h2 : db.properties.any (fun p => p.id == pid) = true
    · simp [h1, h2] at hs
      rcases hs with hs | hs
      · exact Or.inl hs
      · exact Or.inr (by rw [hs])
    · simp [h1, h2] at hs
      exact Or.inl hs

theorem upsert_signal_success (db : DB) (now : Nat) (pid : Nat)
    (src srid stype : String) (w : Rat)
    (detail : Option (List (String × JVal))) (ed : Option String)
    (hfresh : ∀ s ∈ db.signals, ¬ s.source_record_id = srid)
    (hfk : ∃ p ∈ db.properties, p.id = pid) :
    ∃ s ∈ (upsert_signal db now pid src srid stype w detail ed).2.signals,
      s.property_id = pid := by
  have h1 : db.signals.any
      (fun s => s.source == src && s.source_record_id == srid) = false := by
    rw [List.any_eq_false]
    intro s hs
    simp [hfresh s hs]
  have h2 : db.properties.any (fun p => p.id == pid) = true := by
    rw [List.any_eq_true]
    obtain ⟨p, hp, hpid⟩ := hfk
    exact ⟨p, hp, by simp [hpid]⟩
  unfold upsert_signal insert_signal_stmt
  simp only [h1, h2]
  refine ⟨{ id := db.sigSeq + 1, property_id := pid, source := src,
            source_record_id := srid, signal_type := stype,
            signal_weight := w,
            detail := match detail with
                      | some d => if d.isEmpty then none else some d
                      | none => none,
            event_date := ed, fetched_at := now }, ?_, rfl⟩
  simp

theorem insertSignals_properties (source : String) (now : Nat) (pid : Nat) :
    ∀ (sigs : List SigSpec) (db : DB),
      (insertSignals source now pid db sigs).properties = db.properties := by
  intro sigs
  induction sigs with
  | nil => intro db; rfl
  | cons sg sgs ih =>
    intro db
    simp only [insertSignals, List.foldl_cons]
    have := ih (upsert_signal db now pid source sg.source_record_id
      sg.signal_type 0 sg.detail sg.event_date).2
    simp only [insertSignals] at this
    rw [this, upsert_signal_properties]

theorem insertSignals_mono (source : String) (now : Nat) (pid : Nat) :
    ∀ (sigs : List SigSpec) (db : DB) (s : SigRow), s ∈ db.signals →
      s ∈ (insertSignals source now pid db sigs).signals := by
  intro sigs
  induction sigs with
  | nil => intro db s hs; exact hs
  | cons sg sgs ih =>
    intro db s hs
    simp only [insertSignals, List.foldl_cons]
    have hstep := upsert_signal_mono db now pid source sg.source_record_id
      sg.signal_type 0 sg.detail sg.event_date s hs
    have := ih (upsert_signal db now pid source sg.source_record_id
      sg.signal_type 0 sg.detail sg.event_date).2 s hstep
    simpa only [insertSignals] using this

theorem insertSignals_sub (source : String) (now : Nat) (pid : Nat) :
    ∀ (sigs : List SigSpec) (db : DB) (s : SigRow),
      s ∈ (insertSignals source now pid db sigs).signals →
      s ∈ db.signals ∨
        s.source_record_id ∈ sigs.map (fun sg => sg.source_record_id) := by
  intro sigs
  induction sigs with
  | nil => intro db s hs; exact Or.inl hs
  | cons sg sgs ih =>
    intro db s hs
    simp only [insertSignals, List.foldl_cons] at hs
    have := ih (upsert_signal db now pid source sg.source_record_id
      sg.signal_type 0 sg.detail sg.event_date).2 s
      (by simpa only [insertSignals] using hs)
    rcases this with hin | hmem
    · rcases upsert_signal_sub db now pid source sg.source_record_id
        sg.signal_type 0 sg.detail sg.event_date s hin with hin2 | heq
      · exact Or.inl hin2
      · exact Or.inr (by simp [heq])
    · exact Or.inr (by simp [hmem])

theorem upsert_property_signals (db : DB) (now : Nat) (raw : Option String)
    (norm : String) (zip : Option String) (lat lng : Option Rat)
    (pt : String) :
    (upsert_property db now raw norm zip lat lng pt).2.signals =
      db.signals := by
  unfold upsert_property
  by_cases h : db.properties.any (fun p => p.address_norm == norm) = true
  · simp only [h, if_true]
    split
    · rfl
    · split <;> rfl
  · simp [h]

theorem upsert_property_conflict_props (db : DB) (now : Nat)
    (raw : Option String) (norm : String) (zip : Option String)
    (lat lng : Option Rat) (pt : String)
    (h : db.properties.any (fun p => p.address_norm == norm) = true) :
    ∃ f : PropRow → PropRow, (∀ p, (f p).id = p.id) ∧
      (upsert_property db now raw norm zip lat lng pt).2.properties =
        db.properties.map f := by
  refine ⟨fun p =>
    if p.address_norm == norm then
      { p with
        address_raw := raw.orElse (fun _ => p.address_raw),
        zip_code := zip.orElse (fun _ => p.zip_code),
        latitude := lat.orElse (fun _ => p.latitude),
        longitude := lng.orElse (fun _ => p.longitude),
        property_type := if pt ≠ "unknown" then pt else p.property_type,
        last_updated := now }
    else p, ?_, ?_⟩
  · intro p
    by_cases hp : (p.address_norm == norm) = true
    · simp [hp]
    · simp [hp]
  · unfold upsert_property
    simp only [h, if_true]
    split
    · rfl
    · split <;> rfl

theorem upsert_property_insert_props (db : DB) (now : Nat)
    (raw : Option String) (norm : String) (zip : Option String)
    (lat lng : Option Rat) (pt : String)
    (h : db.properties.any (fun p => p.address_norm == norm) = false) :
    ∃ row : PropRow,
      row.id = (upsert_property db now raw norm zip lat lng pt).1 ∧
      (upsert_property db now raw norm zip lat lng pt).2.properties =
        db.properties ++ [row] := by
  unfold upsert_property
  simp only [h, Bool.false_eq_true, if_false]
  exact ⟨_, rfl, rfl⟩

theorem processRecord_orphanFree (source : String) (now : Nat) (db : DB)
    (r : FetchRecord) (hof : OrphanFree db) (hne : r.signals ≠ [])
    (hfresh : ∀ sg ∈ r.signals, ∀ s ∈ db.signals,
      ¬ s.source_record_id = sg.source_record_id) :
    OrphanFree (processRecord source now db r) := by
  unfold processRecord
  cases hra : r.rawAddr with
  | none => exact hof
  | some raw =>
    by_cases hempty : raw = ""
    · simpa [hempty] using hof
    · simp only [if_neg hempty]
      cases hnorm : normalize_address raw with
      | none => exact hof
      | some norm =>
        show OrphanFree (insertSignals source now
          (upsert_property db now (some raw) norm r.zip r.lat r.lng
            ("unknown")).1
          (upsert_property db now (some raw) norm r.zip r.lat r.lng
            ("unknown")).2
          r.signals)
        intro p hp
        rw [insertSignals_properties] at hp
        by_cases hconf : db.properties.any
            (fun q => q.address_norm == norm) = true
        · obtain ⟨f, hfid, hfprops⟩ :=
            upsert_property_conflict_props db now (some raw) norm r.zip
              r.lat r.lng ("unknown") hconf
          rw [hfprops] at hp
          obtain ⟨p0, hp0, hfp0⟩ := List.mem_map.mp hp
          obtain ⟨s, hsmem, hspid⟩ := hof p0 hp0
          have hs1 : s ∈ (upsert_property db now (some raw) norm r.zip
              r.lat r.lng ("unknown")).2.signals := by
            rw [upsert_property_signals]
            exact hsmem
          refine ⟨s, insertSignals_mono source now _ r.signals _ s hs1, ?_⟩
          rw [hspid, ← hfp0, hfid p0]
        · obtain ⟨row, hrowid, hprops⟩ :=
            upsert_property_insert_props db now (some raw) norm r.zip
              r.lat r.lng ("unknown") (by simpa using hconf)
          rw [hprops] at hp
          rcases List.mem_append.mp hp with hold | hnew
          · obtain ⟨s, hsmem, hspid⟩ := hof p hold
            have hs1 : s ∈ (upsert_property db now (some raw) norm r.zip
                r.lat r.lng ("unknown")).2.signals := by
              rw [upsert_property_signals]
              exact hsmem
            exact ⟨s, insertSignals_mono source now _ r.signals _ s hs1,
              hspid⟩
          · have hpr : p = row := List.mem_singleton.mp hnew
            cases hsigs : r.signals with
            | nil => exact absurd hsigs hne
            | cons sg sgs =>
              have hfk : ∃ q ∈ (upsert_property db now (some raw) norm r.zip
                    r.lat r.lng ("unknown")).2.properties,
                  q.id = (upsert_property db now (some raw) norm r.zip
                    r.lat r.lng ("unknown")).1 := by
                refine ⟨row, ?_, hrowid⟩
                rw [hprops]
                exact List.mem_append_right _ (List.mem_singleton_self _)
              have hfresh1 : ∀ s ∈ (upsert_property db now (some raw) norm
                    r.zip r.lat r.lng ("unknown")).2.signals,
                  ¬ s.source_record_id = sg.source_record_id := by
                intro s hs
                rw [upsert_property_signals] at hs
                exact hfresh sg (by rw [hsigs]; exact List.mem_cons_self _ _)
                  s hs
              obtain ⟨s, hsmem, hspid⟩ :=
                upsert_signal_success
                  (upsert_property db now (some raw) norm r.zip r.lat
                    r.lng ("unknown")).2 now
                  (upsert_property db now (some raw) norm r.zip r.lat
                    r.lng ("unknown")).1
                  source sg.source_record_id sg.signal_type 0 sg.detail
                  sg.event_date hfresh1 hfk
              have hsfinal : s ∈ (insertSignals source now
                  (upsert_property db now (some raw) norm r.zip r.lat
                    r.lng ("unknown")).1
                  (upsert_property db now (some raw) norm r.zip r.lat
                    r.lng ("unknown")).2 (sg :: sgs)).signals := by
                simp only [insertSignals, List.foldl_cons]
                have hmono := insertSignals_mono source now
                  (upsert_property db now (some raw) norm r.zip r.lat
                    r.lng ("unknown")).1 sgs
                  (upsert_signal
                    (upsert_property db now (some raw) norm r.zip r.lat
                      r.lng ("unknown")).2 now
                    (upsert_property db now (some raw) norm r.zip r.lat
                      r.lng ("unknown")).1 source sg.source_record_id
                    sg.signal_type 0 sg.detail sg.event_date).2 s hsmem
                simpa only [insertSignals] using hmono
              refine ⟨s, hsfinal, ?_⟩
              rw [hspid, hpr, hrowid]

theorem processRecord_sub (source : String) (now : Nat) (db : DB)
    (r : FetchRecord) :
    ∀ s ∈ (processRecord source now db r).signals,
      s ∈ db.signals ∨
        s.source_record_id ∈ r.signals.map (fun sg => sg.source_record_id) := by
  unfold processRecord
  cases hra : r.rawAddr with
  | none => exact fun s hs => Or.inl hs
  | some raw =>
    by_cases hempty : raw = ""
    · simp only [if_pos hempty]
      exact fun s hs => Or.inl hs
    · simp only [if_neg hempty]
      cases hnorm : normalize_address raw with
      | none => exact fun s hs => Or.inl hs
      | some norm =>
        intro s hs
        rcases insertSignals_sub source now _ r.signals _ s hs with hin | hm
        · rw [upsert_property_signals] at hin
          exact Or.inl hin
        · exact Or.inr hm

theorem hasOrphan_eq_false_iff (db : DB) :
    hasOrphan db = false ↔ OrphanFree db := by
  simp [hasOrphan, isOrphan, OrphanFree, List.any_eq_false,
    List.all_eq_true]

theorem run_fetcher_orphanFree_aux (source : String) (now : Nat) :
    ∀ (records : List FetchRecord) (db : DB),
      OrphanFree db →
      (∀ s ∈ db.signals, ∀ r ∈ records, ∀ sg ∈ r.signals,
        ¬ s.source_record_id = sg.source_record_id) →
      (∀ r ∈ records, r.signals ≠ []) →
      (records.flatMap (fun r => r.signals.map
        (fun sg => sg.source_record_id))).Nodup →
      OrphanFree (records.foldl (processRecord source now) db) := by
  intro records
  induction records with
  | nil => intro db hof _ _ _; exact hof
  | cons r rs ih =>
    intro db hof hdisj hne hnd
    rw [List.foldl_cons]
    rw [List.flatMap_cons] at hnd
    apply ih (processRecord source now db r)
    · exact processRecord_orphanFree source now db r hof
        (hne r (List.mem_cons_self _ _))
        (fun sg hsg s hs => hdisj s hs r (List.mem_cons_self _ _) sg hsg)
    · intro s hs r2 hr2 sg hsg heq
      rcases processRecord_sub source now db r s hs with hold | hnewm
      · exact hdisj s hold r2 (List.mem_cons_of_mem _ hr2) sg hsg heq
      · have hinB : sg.source_record_id ∈ rs.flatMap
            (fun x => x.signals.map (fun y => y.source_record_id)) :=
          List.mem_flatMap.mpr ⟨r2, hr2, List.mem_map_of_mem _ hsg⟩
        have hdis := List.disjoint_of_nodup_append hnd
        exact hdis hnewm (heq ▸ hinB)
    · exact fun r2 hr2 => hne r2 (List.mem_cons_of_mem _ hr2)
    · exact (List.nodup_append.mp hnd).2.1

/-- C3 (counterexample): two fetched records with different addresses
whose only signals share a `source_record_id`.  The second record's
property is created, its signal insert collides with the pair already
owned by the first property, and the run ends with an orphan property
row — the claimed invariant fails. -/
theorem C3_counterexample :
    hasOrphan (run_fetcher ("src") 0 emptyDB [c3r1, c3r2]) = true := by
  decide

/-- C3 (amended): starting from an empty store, if every record carries
at least one signal and the signal record-ids of the whole run are
pairwise distinct, then after the run every property row is referenced
by at least one signal; when a record's signals all collide with pairs
already belonging to a different property, orphan rows can appear (see
the counterexample). -/
theorem C3_no_orphans_when_signals_fresh (source : String) (now : Nat)
    (records : List FetchRecord)
    (hne : ∀ r ∈ records, r.signals ≠ [])
    (hnd : (records.flatMap (fun r => r.signals.map
      (fun sg => sg.source_record_id))).Nodup) :
    hasOrphan (run_fetcher source now emptyDB records) = false := by
  rw [hasOrphan_eq_false_iff]
  unfold run_fetcher
  apply run_fetcher_orphanFree_aux source now records emptyDB
  · intro p hp
    exact absurd hp (by simp [emptyDB])
  · intro s hs
    exact absurd hs (by simp [emptyDB])
  · exact hne
  · exact hnd

/-- C3 (witness): a one-record run with a fresh signal leaves no
orphans. -/
theorem C3_witness :
    (∀ r ∈ [c3r3], r.signals ≠ []) ∧
    ([c3r3].flatMap (fun r => r.signals.map
      (fun sg => sg.source_record_id))).Nodup ∧
    hasOrphan (run_fetcher ("src") 0 emptyDB [c3r3]) = false :=
  ⟨by decide, by decide,
   C3_no_orphans_when_signals_fresh ("src") 0 [c3r3] (by decide)
     (by decide)⟩

end Pipeline
